import Mathlib

/-!
Shallow embedding of the `openai-agents-session` package: two session
storage backends (`RedisSession` in `redis.py`, `DynamoDBSession` in
`dynamodb.py`) for an agent runtime.  Each backend stores, per
`session_id`, an ordered list of conversation items, and offers
`get_items`, `add_items`, `pop_item` and `clear_session`.

Modelling choices, all taken from the source:
* A conversation item (`TResponseInputItem`) is JSON-serializable data.
  `Item.dict s` is a plain mapping whose JSON encoding is the string `s`
  (`json.dumps` of the dict); `Item.model s` is an object with a
  `model_dump` method whose dumped JSON encoding is `s`; `Item.bad t` is
  any other value, which `_serialize_item` rejects with `TypeError`.
  `json.loads` of an item's encoding yields a plain mapping, so
  deserialization always produces `Item.dict`.
* The Redis store is a map from keys to lists of element strings plus a
  per-key absolute expiry; `lrange`, `rpush`, `rpop`, `delete` and
  `expire` follow the Redis command semantics (negative index
  conversion and clamping for LRANGE; EXPIRE is a no-op on a missing
  key; a list key vanishes, expiry included, when its last element is
  popped).
* The DynamoDB store is a map from (table name, session_id) to a record
  `{conversation_data, updated_at, ttl}`.  The JSON string attribute
  `conversation_data` (a JSON array of item documents) is abstracted as
  the list of its elements' encodings, `json.dumps`/`json.loads` of the
  array being inverse to each other.
* Every operation returns its result, the post state, and the trace of
  backend commands it issued (the wire round trips), in order.
* Wall-clock time is an explicit `now : Nat` parameter (epoch seconds),
  read where the source calls `time.time()` or lets Redis compute
  `now + ttl` for EXPIRE.
-/

/-- A value passed as a conversation item (see `_serialize_item`):
a plain dict with JSON encoding `s`, an object whose `model_dump(mode="json")`
has JSON encoding `s`, or any other value (not serializable). -/
inductive Item where
  | dict (s : String)
  | model (s : String)
  | bad (tag : String)
deriving DecidableEq, Repr

/-- `RedisSession._serialize_item` / one element of
`DynamoDBSession._serialize_items`: JSON-encode a dict or a
`model_dump`-capable object, `TypeError` (`none`) otherwise. -/
def serialize_item : Item → Option String
  | .dict s => some s
  | .model s => some s
  | .bad _ => none

/-- `json.loads` on an item document: yields a plain mapping. -/
def deserialize_item (s : String) : Item := .dict s

/-- Serialize a batch in order, `TypeError` (`none`) as soon as one item
fails: the Redis `[self._serialize_item(item) for item in items]` list
comprehension and the DynamoDB `_serialize_items` loop both raise at the
first unserializable item and produce the full encoded list otherwise. -/
def serializeAll : List Item → Option (List String)
  | [] => some []
  | i :: rest =>
    match serialize_item i, serializeAll rest with
    | some s, some ss => some (s :: ss)
    | _, _ => none

/-- Python list slicing `l[start:]` (the end of the slice is the list's
end): a negative `start` counts from the end and is clamped to `0`, a
nonnegative one is clamped to `len(l)`. -/
def pyStartIdx (start : Int) (n : Nat) : Nat :=
  if start < 0 then ((n : Int) + start).toNat else min start.toNat n

/-- Python `l[start:]`. -/
def pySliceFrom (start : Int) (l : List α) : List α :=
  l.drop (pyStartIdx start l.length)

/-- Redis `LRANGE key start stop` on the list `l`: negative indices are
converted by adding the length, the start is clamped below at `0`, the
stop above at `len-1`, and an inverted or out-of-range window yields the
empty list (`t_list.c`, `lrangeCommand`). -/
def lrangeList (l : List α) (start stop : Int) : List α :=
  let llen : Int := l.length
  let s0 : Int := if start < 0 then llen + start else start
  let e0 : Int := if stop < 0 then llen + stop else stop
  let s1 : Int := if s0 < 0 then 0 else s0
  if s1 > e0 ∨ s1 ≥ llen then []
  else
    let e1 : Int := if e0 ≥ llen then llen - 1 else e0
    (l.drop s1.toNat).take (e1 - s1 + 1).toNat

/-- State of the Redis server: each key holds a (possibly empty) list of
element strings — a missing key and an empty list are the same thing in
Redis — and an optional absolute expiry timestamp. -/
structure RedisState where
  data : String → List String
  expiry : String → Option Nat

/-- Pointwise update of a string-keyed table. -/
def upd (f : String → α) (k : String) (v : α) : String → α :=
  fun k' => if k' = k then v else f k'

/-- A Redis server with no data. -/
def RedisState.empty : RedisState := ⟨fun _ => [], fun _ => none⟩

/-- One Redis command on the wire, as issued by the session. -/
inductive RCmd where
  | lrange (key : String) (start stop : Int)
  | rpush (key : String) (vals : List String)
  | rpop (key : String)
  | del (key : String)
  | expire (key : String) (ttl : Nat)
deriving DecidableEq, Repr

/-- Redis `RPUSH key vals…`: append to the tail (creates the key). -/
def redisRpush (st : RedisState) (key : String) (vals : List String) : RedisState :=
  { st with data := upd st.data key (st.data key ++ vals) }

/-- Redis `RPOP key`: state change only (the popped value is read off the
old state).  When the last element goes, the key is gone and so is its
expiry. -/
def redisRpopState (st : RedisState) (key : String) : RedisState :=
  let old := st.data key
  let d' := upd st.data key old.dropLast
  if old ≠ [] ∧ old.dropLast = [] then
    { data := d', expiry := upd st.expiry key none }
  else
    { st with data := d' }

/-- Redis `DEL key`. -/
def redisDel (st : RedisState) (key : String) : RedisState :=
  { data := upd st.data key [], expiry := upd st.expiry key none }

/-- Redis `EXPIRE key ttl` at wall-clock `now`: sets the expiry to
`now + ttl` when the key exists, does nothing otherwise. -/
def redisExpire (st : RedisState) (key : String) (now ttl : Nat) : RedisState :=
  if st.data key = [] then st
  else { st with expiry := upd st.expiry key (some (now + ttl)) }

/-- Construction-time configuration of `RedisSession` (`__init__`). -/
structure RedisSession where
  session_id : String
  key_prefix : String := "openai_agents_session"
  ttl : Option Nat := none
deriving DecidableEq, Repr

namespace RedisSession

/-- `RedisSession._key`: `f"{self._key_prefix}:{self.session_id}"`. -/
def key (c : RedisSession) : String :=
  c.key_prefix ++ ":" ++ c.session_id

/-- `RedisSession._refresh_ttl`: issue EXPIRE when a ttl is configured. -/
def refresh_ttl (c : RedisSession) (now : Nat) (st : RedisState) :
    RedisState × List RCmd :=
  match c.ttl with
  | none => (st, [])
  | some t => (redisExpire st c.key now t, [.expire c.key t])

/-- `RedisSession.get_items`: LRANGE over the trailing `limit` elements
(indices `-limit … -1`) or the whole list, refresh the ttl, deserialize. -/
def get_items (c : RedisSession) (limit : Option Int) (now : Nat)
    (st : RedisState) : List Item × RedisState × List RCmd :=
  let r : Int × Int :=
    match limit with
    | some k => (-k, -1)
    | none => (0, -1)
  let items := lrangeList (st.data c.key) r.1 r.2
  let p := c.refresh_ttl now st
  (items.map deserialize_item, p.1, .lrange c.key r.1 r.2 :: p.2)

/-- `RedisSession.add_items`: return at once on an empty batch, else
serialize every item (TypeError aborts before any command), RPUSH them
in one call, refresh the ttl. -/
def add_items (c : RedisSession) (items : List Item) (now : Nat)
    (st : RedisState) : Except String Unit × RedisState × List RCmd :=
  if items = [] then (.ok (), st, [])
  else
    match serializeAll items with
    | none => (.error "TypeError", st, [])
    | some ser =>
      let st1 := redisRpush st c.key ser
      let p := c.refresh_ttl now st1
      (.ok (), p.1, .rpush c.key ser :: p.2)

/-- `RedisSession.pop_item`: RPOP, refresh the ttl, deserialize the
popped element when there was one. -/
def pop_item (c : RedisSession) (now : Nat) (st : RedisState) :
    Option Item × RedisState × List RCmd :=
  let v := (st.data c.key).getLast?
  let st1 := redisRpopState st c.key
  let p := c.refresh_ttl now st1
  (v.map deserialize_item, p.1, .rpop c.key :: p.2)

/-- `RedisSession.clear_session`: DEL the key (no ttl refresh). -/
def clear_session (c : RedisSession) (st : RedisState) :
    RedisState × List RCmd :=
  (redisDel st c.key, [.del c.key])

end RedisSession

/-- The DynamoDB record for one session (`_put_items` builds it):
`conversation_data` is a JSON array of item documents, abstracted as the
list of its elements' JSON encodings; `updated_at` the write time;
`ttl` the optional absolute expiry attribute. -/
structure DDBRecord where
  conversation_data : List String
  updated_at : Nat
  ttl : Option Nat
deriving DecidableEq, Repr

/-- State of the DynamoDB service: a record per (table name, session_id),
or none when no record exists. -/
structure DDBState where
  tables : String → String → Option DDBRecord

/-- A DynamoDB service with no table contents. -/
def DDBState.empty : DDBState := ⟨fun _ _ => none⟩

/-- Pointwise update of a (table, key)-indexed map. -/
def updT (f : String → String → Option DDBRecord) (t k : String)
    (v : Option DDBRecord) : String → String → Option DDBRecord :=
  fun t' k' => if t' = t ∧ k' = k then v else f t' k'

/-- One DynamoDB request on the wire, as issued by the session. -/
inductive DCmd where
  | get_item (table sid : String)
  | put_item (table sid : String) (rcd : DDBRecord)
  | delete_item (table sid : String)
deriving DecidableEq, Repr

/-- Construction-time configuration of `DynamoDBSession` (`__init__`). -/
structure DynamoDBSession where
  session_id : String
  table_name : String
  ttl_seconds : Option Nat := none
deriving DecidableEq, Repr

namespace DynamoDBSession

/-- `DynamoDBSession._serialize_items`: JSON-encode the array, raising
`TypeError` (`none`) as soon as one element is neither `model_dump`-capable
nor a dict. -/
def serialize_items (items : List Item) : Option (List String) :=
  serializeAll items

/-- `DynamoDBSession._deserialize_items` on a stored array: `json.loads`
yields plain mappings. -/
def deserialize_items (ss : List String) : List Item :=
  ss.map deserialize_item

/-- `DynamoDBSession._get_ttl_value`: `int(time.time()) + ttl_seconds`
when configured. -/
def get_ttl_value (c : DynamoDBSession) (now : Nat) : Option Nat :=
  c.ttl_seconds.map (fun t => now + t)

/-- `DynamoDBSession._get_raw_items`: GetItem projected to
`conversation_data`; a missing record (or missing attribute, default
`"[]"`) is the empty history. -/
def get_raw_items (c : DynamoDBSession) (st : DDBState) :
    List Item × List DCmd :=
  let items :=
    match st.tables c.table_name c.session_id with
    | none => []
    | some r => deserialize_items r.conversation_data
  (items, [.get_item c.table_name c.session_id])

/-- `DynamoDBSession._put_items`: serialize the whole sequence
(TypeError aborts before the PutItem), then overwrite the record with
the data, the write timestamp, and — only when configured — the ttl. -/
def put_items (c : DynamoDBSession) (items : List Item) (now : Nat)
    (st : DDBState) : Except String Unit × DDBState × List DCmd :=
  match serialize_items items with
  | none => (.error "TypeError", st, [])
  | some ser =>
    let r : DDBRecord := ⟨ser, now, c.get_ttl_value now⟩
    (.ok (), ⟨updT st.tables c.table_name c.session_id (some r)⟩,
      [.put_item c.table_name c.session_id r])

/-- `DynamoDBSession.get_items`: read the full sequence, slice the last
`limit` elements client-side (`items[-limit:]`).  No write, no ttl. -/
def get_items (c : DynamoDBSession) (limit : Option Int) (st : DDBState) :
    List Item × List DCmd :=
  let p := c.get_raw_items st
  let out :=
    match limit with
    | some k => pySliceFrom (-k) p.1
    | none => p.1
  (out, p.2)

/-- `DynamoDBSession.add_items`: return at once on an empty batch, else
read the full sequence, extend it and write it back. -/
def add_items (c : DynamoDBSession) (items : List Item) (now : Nat)
    (st : DDBState) : Except String Unit × DDBState × List DCmd :=
  if items = [] then (.ok (), st, [])
  else
    let p := c.get_raw_items st
    let q := c.put_items (p.1 ++ items) now st
    (q.1, q.2.1, p.2 ++ q.2.2)

/-- `DynamoDBSession.pop_item`: read the full sequence; empty yields the
no-item marker without a write; else write back all but the last element
and return it. -/
def pop_item (c : DynamoDBSession) (now : Nat) (st : DDBState) :
    Option Item × DDBState × List DCmd :=
  let p := c.get_raw_items st
  if p.1 = [] then (none, st, p.2)
  else
    let q := c.put_items p.1.dropLast now st
    (p.1.getLast?, q.2.1, p.2 ++ q.2.2)

/-- `DynamoDBSession.clear_session`: DeleteItem for this key outright. -/
def clear_session (c : DynamoDBSession) (st : DDBState) :
    DDBState × List DCmd :=
  (⟨updT st.tables c.table_name c.session_id none⟩,
    [.delete_item c.table_name c.session_id])

end DynamoDBSession

/-! ### Range semantics: LRANGE with stop `-1` agrees with Python `l[start:]` -/

/-- Redis `LRANGE key start -1` computes exactly the Python slice
`l[start:]`, for every integer `start`. -/
theorem lrange_tail_eq_pySliceFrom (l : List α) (s : Int) :
    lrangeList l s (-1) = pySliceFrom s l := by
  unfold lrangeList pySliceFrom pyStartIdx
  simp only
  split_ifs <;>
    first
      | (symm; apply List.drop_eq_nil_of_le; omega)
      | (apply List.take_of_length_le; simp [List.length_drop]; omega)
      | (rw [List.take_of_length_le] <;> [skip; simp [List.length_drop]] <;> congr 1 <;> omega)

/-- Python slicing commutes with `map`. -/
theorem pySliceFrom_map (f : α → β) (l : List α) (s : Int) :
    pySliceFrom s (l.map f) = (pySliceFrom s l).map f := by
  unfold pySliceFrom
  rw [List.length_map]
  exact (List.map_drop ..).symm

/-- `l[0:]` is all of `l`. -/
theorem pySliceFrom_zero (l : List α) : pySliceFrom 0 l = l := by
  unfold pySliceFrom pyStartIdx
  simp

/-! ### Codec and table-update lemmas -/

/-- Deserialization yields plain dicts. -/
theorem deserialize_item_eq : deserialize_item = Item.dict := rfl

/-- A batch of plain dicts serializes to exactly its encodings. -/
theorem serializeAll_map_dict (l : List String) :
    serializeAll (l.map Item.dict) = some l := by
  induction l with
  | nil => rfl
  | cons a t ih => simp [serializeAll, serialize_item, ih]

/-- A batch containing an unserializable item fails as a whole. -/
theorem serializeAll_eq_none (l : List Item)
    (h : ∃ i ∈ l, serialize_item i = none) : serializeAll l = none := by
  induction l with
  | nil => simp at h
  | cons a t ih =>
    obtain ⟨x, hx, hfx⟩ := h
    rcases List.mem_cons.mp hx with rfl | hm
    · cases hs : serializeAll t <;> simp [serializeAll, hfx, hs]
    · cases hfa : serialize_item a <;>
        simp [serializeAll, hfa, ih ⟨x, hm, hfx⟩]

theorem upd_same (f : String → α) (k : String) (v : α) : upd f k v k = v := by
  simp [upd]

theorem upd_ne {f : String → α} {k k' : String} {v : α} (h : k' ≠ k) :
    upd f k v k' = f k' := by
  simp [upd, h]

theorem upd_upd (f : String → α) (k : String) (v w : α) :
    upd (upd f k v) k w = upd f k w := by
  funext k'
  by_cases h : k' = k <;> simp [upd, h]

theorem updT_same (f : String → String → Option DDBRecord) (t k : String)
    (v : Option DDBRecord) : updT f t k v t k = v := by
  simp [updT]

theorem updT_ne {f : String → String → Option DDBRecord} {t k t' k' : String}
    {v : Option DDBRecord} (h : ¬(t' = t ∧ k' = k)) :
    updT f t k v t' k' = f t' k' := by
  simp [updT, h]

theorem updT_updT (f : String → String → Option DDBRecord) (t k : String)
    (v w : Option DDBRecord) : updT (updT f t k v) t k w = updT f t k w := by
  funext t' k'
  by_cases h : t' = t ∧ k' = k <;> simp [updT, h]

/-! ### Redis backend: observation lemmas -/

namespace RedisSession

theorem refresh_ttl_data (c : RedisSession) (now : Nat) (st : RedisState) :
    ((c.refresh_ttl now st).1).data = st.data := by
  unfold refresh_ttl redisExpire
  cases c.ttl with
  | none => rfl
  | some t =>
    dsimp
    split <;> rfl

/-- What `get_items` returns: the Python slice of the stored list
(`-limit` when a limit is given, `0` otherwise), deserialized. -/
theorem get_items_fst (c : RedisSession) (limit : Option Int) (now : Nat)
    (st : RedisState) :
    (c.get_items limit now st).1
      = (pySliceFrom (match limit with | some k => -k | none => 0)
          (st.data c.key)).map deserialize_item := by
  cases limit <;> simp [get_items, lrange_tail_eq_pySliceFrom]

theorem get_items_data (c : RedisSession) (limit : Option Int) (now : Nat)
    (st : RedisState) :
    ((c.get_items limit now st).2.1).data = st.data := by
  cases limit <;> simp [get_items, refresh_ttl_data]

/-- Appending a batch of dicts appends exactly their encodings. -/
theorem add_items_data_self (c : RedisSession) (A : List String) (now : Nat)
    (st : RedisState) :
    ((c.add_items (A.map Item.dict) now st).2.1).data c.key
      = st.data c.key ++ A := by
  by_cases hA : A = []
  · subst hA
    simp [add_items]
  · have hne : A.map Item.dict ≠ [] := by
      simpa using hA
    simp [add_items, hne, serializeAll_map_dict, redisRpush, refresh_ttl_data,
      upd_same]

/-- An unserializable batch: `TypeError`, untouched state, no command. -/
theorem add_items_bad (c : RedisSession) (items : List Item) (now : Nat)
    (st : RedisState) (h : ∃ i ∈ items, serialize_item i = none) :
    c.add_items items now st = (.error "TypeError", st, []) := by
  have hne : items ≠ [] := by
    rintro rfl
    simp at h
  simp [add_items, hne, serializeAll_eq_none items h]

theorem pop_item_fst (c : RedisSession) (now : Nat) (st : RedisState) :
    (c.pop_item now st).1
      = ((st.data c.key).map deserialize_item).getLast? := by
  simp [pop_item, List.getLast?_map]

theorem pop_item_data (c : RedisSession) (now : Nat) (st : RedisState) :
    ((c.pop_item now st).2.1).data c.key = (st.data c.key).dropLast := by
  simp only [pop_item, refresh_ttl_data, redisRpopState]
  split <;> simp [upd_same]

theorem clear_session_data (c : RedisSession) (st : RedisState) :
    ((c.clear_session st).1).data c.key = [] := by
  simp [clear_session, redisDel, upd_same]

end RedisSession

/-! ### DynamoDB backend: observation lemmas -/

/-- The stored sequence of encodings for one (table, session) pair: the
elements of the record's `conversation_data` array, empty when no record
exists. -/
def DDBState.cdata (st : DDBState) (t k : String) : List String :=
  match st.tables t k with
  | none => []
  | some r => r.conversation_data

namespace DynamoDBSession

theorem get_raw_items_fst (c : DynamoDBSession) (st : DDBState) :
    (c.get_raw_items st).1
      = (st.cdata c.table_name c.session_id).map Item.dict := by
  unfold get_raw_items DDBState.cdata deserialize_items
  cases st.tables c.table_name c.session_id <;> rfl

/-- What `get_items` returns: the Python slice of the stored sequence,
deserialized. -/
theorem get_items_fst_ddb (c : DynamoDBSession) (limit : Option Int)
    (st : DDBState) :
    (c.get_items limit st).1
      = (pySliceFrom (match limit with | some k => -k | none => 0)
          (st.cdata c.table_name c.session_id)).map deserialize_item := by
  cases limit <;>
    simp [get_items, get_raw_items_fst, pySliceFrom_map, pySliceFrom_zero,
      deserialize_item]

/-- Appending a batch of dicts appends exactly their encodings. -/
theorem add_items_cdata_self (c : DynamoDBSession) (A : List String)
    (now : Nat) (st : DDBState) :
    ((c.add_items (A.map Item.dict) now st).2.1).cdata c.table_name
        c.session_id
      = st.cdata c.table_name c.session_id ++ A := by
  by_cases hA : A = []
  · subst hA
    simp [add_items]
  · have hne : A.map Item.dict ≠ [] := by
      simpa using hA
    have hser :
        serialize_items ((st.cdata c.table_name c.session_id).map Item.dict
            ++ A.map Item.dict)
          = some (st.cdata c.table_name c.session_id ++ A) := by
      rw [← List.map_append]
      exact serializeAll_map_dict _
    unfold add_items
    rw [if_neg hne]
    dsimp only
    rw [get_raw_items_fst]
    unfold put_items
    rw [hser]
    simp [DDBState.cdata, updT_same]

theorem pop_item_fst_ddb (c : DynamoDBSession) (now : Nat) (st : DDBState) :
    (c.pop_item now st).1
      = ((st.cdata c.table_name c.session_id).map deserialize_item).getLast? := by
  by_cases hc : st.cdata c.table_name c.session_id = []
  · simp [pop_item, get_raw_items_fst, hc, deserialize_item]
  · have hne : (st.cdata c.table_name c.session_id).map Item.dict ≠ [] := by
      simpa using hc
    simp only [pop_item, get_raw_items_fst, if_neg hne, List.getLast?_map]
    rfl

theorem pop_item_cdata (c : DynamoDBSession) (now : Nat) (st : DDBState) :
    ((c.pop_item now st).2.1).cdata c.table_name c.session_id
      = (st.cdata c.table_name c.session_id).dropLast := by
  by_cases hc : st.cdata c.table_name c.session_id = []
  · simp [pop_item, get_raw_items_fst, hc]
  · have hne : (st.cdata c.table_name c.session_id).map Item.dict ≠ [] := by
      simpa using hc
    have hser :
        serialize_items (((st.cdata c.table_name c.session_id).map
            Item.dict).dropLast)
          = some ((st.cdata c.table_name c.session_id).dropLast) := by
      rw [(List.map_dropLast Item.dict _).symm]
      exact serializeAll_map_dict _
    unfold pop_item
    dsimp only
    rw [get_raw_items_fst, if_neg hne]
    unfold put_items
    rw [hser]
    simp [DDBState.cdata, updT_same]

theorem clear_session_cdata (c : DynamoDBSession) (st : DDBState) :
    ((c.clear_session st).1).cdata c.table_name c.session_id = [] := by
  simp [clear_session, DDBState.cdata, updT_same]

end DynamoDBSession

/-! ### The limit semantics, as the spec describes it -/

/-- Spec-side description of `get_items`'s limit handling (claim C10):
the full sequence for an absent limit, the last `limit` elements for a
positive one, the full sequence for `limit = 0`, and the sequence with
its first `|limit|` elements dropped for a negative one. -/
def limitSpec (limit : Option Int) (l : List α) : List α :=
  match limit with
  | none => l
  | some k =>
    if 0 < k then l.drop (l.length - k.toNat)
    else if k = 0 then l
    else l.drop (-k).toNat

theorem drop_min (l : List α) (n : Nat) :
    l.drop (min n l.length) = l.drop n := by
  by_cases h : n ≤ l.length
  · congr 1
    omega
  · rw [List.drop_eq_nil_of_le (by omega), List.drop_eq_nil_of_le (by omega)]

/-- The Python slice `l[-k:]` is exactly what C10 describes. -/
theorem pySliceFrom_neg_eq_limitSpec (l : List α) (k : Int) :
    pySliceFrom (-k) l = limitSpec (some k) l := by
  rcases lt_trichotomy k 0 with hk | hk | hk
  · unfold pySliceFrom pyStartIdx
    simp only [limitSpec]
    rw [if_neg (by omega), if_neg (by omega), if_neg (by omega)]
    exact drop_min l (-k).toNat
  · subst hk
    simp only [limitSpec]
    simpa using pySliceFrom_zero l
  · unfold pySliceFrom pyStartIdx
    simp only [limitSpec]
    rw [if_pos (by omega), if_pos hk]
    congr 1
    omega

/-- The Python slice `l[-k:]` for `k ≥ 1`: the last `min k (length l)`
elements, in order. -/
theorem pySliceFrom_neg_nat (l : List α) (k : Nat) (hk : 1 ≤ k) :
    pySliceFrom (-(k : Int)) l = l.drop (l.length - min k l.length) := by
  unfold pySliceFrom pyStartIdx
  rw [if_pos (by omega)]
  congr 1
  omega

/-! ### Fixture states for the witnesses -/

def sampleRedis : RedisSession := ⟨"s", "p", none⟩

def sampleRedisSt : RedisState :=
  redisRpush RedisState.empty sampleRedis.key ["a", "b"]

def sampleDDB : DynamoDBSession := ⟨"s", "t", none⟩

def sampleDDBSt : DDBState :=
  ⟨updT DDBState.empty.tables "t" "s" (some ⟨["a", "b"], 7, none⟩)⟩

/-! ### The claims -/

/-- C10: for every stored sequence and every limit argument
(absent/`None`, positive, zero, or negative), the Redis backend's
`get_items` and the DynamoDB backend's `get_items` return exactly the
same sequence of items: the full sequence for `None`, the
last-`limit` suffix for positive limit, the full sequence for
`limit = 0`, and the sequence with its first `|limit|` items dropped
for negative limit (empty when `|limit| ≥ length`). -/
theorem C10_backends_agree (cr : RedisSession) (cd : DynamoDBSession)
    (str : RedisState) (std : DDBState) (ss : List String)
    (now : Nat) (limit : Option Int)
    (hr : str.data cr.key = ss)
    (hd : std.cdata cd.table_name cd.session_id = ss) :
    (cr.get_items limit now str).1 = (cd.get_items limit std).1
    ∧ (cd.get_items limit std).1
        = limitSpec limit (ss.map deserialize_item) := by
  rw [RedisSession.get_items_fst, DynamoDBSession.get_items_fst_ddb, hr, hd]
  refine ⟨rfl, ?_⟩
  cases limit with
  | none =>
    simp [limitSpec, pySliceFrom_zero]
  | some k =>
    rw [← pySliceFrom_neg_eq_limitSpec (ss.map deserialize_item) k,
      pySliceFrom_map]

/-- Witness for C10 at a concrete store and `limit = -1`. -/
theorem C10_backends_agree_witness :
    (sampleRedisSt.data sampleRedis.key = ["a", "b"]
      ∧ sampleDDBSt.cdata sampleDDB.table_name sampleDDB.session_id
          = ["a", "b"])
    ∧ ((sampleRedis.get_items (some (-1)) 0 sampleRedisSt).1
          = (sampleDDB.get_items (some (-1)) sampleDDBSt).1
      ∧ (sampleDDB.get_items (some (-1)) sampleDDBSt).1
          = limitSpec (some (-1)) (["a", "b"].map deserialize_item)) :=
  ⟨⟨by decide, by decide⟩,
    C10_backends_agree sampleRedis sampleDDB sampleRedisSt sampleDDBSt
      ["a", "b"] 0 (some (-1)) (by decide) (by decide)⟩

/-- C1 (amended): for every stored sequence of `N` items and every
`k ≥ 1`, `get_items` with `limit = k` returns exactly the last
`min k N` items of the current sequence, oldest-first, on both
backends; `limit = 0`, however, returns the full sequence (not the
empty one). -/
theorem C1_get_items_limit (cr : RedisSession) (cd : DynamoDBSession)
    (str : RedisState) (std : DDBState) (ss : List String)
    (now : Nat) (k : Nat) (hk : 1 ≤ k)
    (hr : str.data cr.key = ss)
    (hd : std.cdata cd.table_name cd.session_id = ss) :
    ((cr.get_items (some (k : Int)) now str).1
        = (ss.map deserialize_item).drop (ss.length - min k ss.length)
      ∧ (cd.get_items (some (k : Int)) std).1
        = (ss.map deserialize_item).drop (ss.length - min k ss.length))
    ∧ ((cr.get_items (some 0) now str).1 = ss.map deserialize_item
      ∧ (cd.get_items (some 0) std).1 = ss.map deserialize_item) := by
  rw [RedisSession.get_items_fst, RedisSession.get_items_fst,
    DynamoDBSession.get_items_fst_ddb, DynamoDBSession.get_items_fst_ddb, hr, hd]
  have hpos : pySliceFrom (-(k : Int)) ss
      = ss.drop (ss.length - min k ss.length) :=
    pySliceFrom_neg_nat ss k hk
  have hzero : pySliceFrom (-(0 : Int)) ss = ss := by
    simpa using pySliceFrom_zero ss
  constructor
  · constructor <;> rw [hpos, List.map_drop]
  · constructor <;> rw [hzero]

/-- Witness for C1 at a concrete two-element store and `k = 1`. -/
theorem C1_get_items_limit_witness :
    (1 ≤ 1
      ∧ sampleRedisSt.data sampleRedis.key = ["a", "b"]
      ∧ sampleDDBSt.cdata sampleDDB.table_name sampleDDB.session_id
          = ["a", "b"])
    ∧ (((sampleRedis.get_items (some ((1 : Nat) : Int)) 0 sampleRedisSt).1
          = (["a", "b"].map deserialize_item).drop
              (["a", "b"].length - min 1 ["a", "b"].length)
        ∧ (sampleDDB.get_items (some ((1 : Nat) : Int)) sampleDDBSt).1
          = (["a", "b"].map deserialize_item).drop
              (["a", "b"].length - min 1 ["a", "b"].length))
      ∧ ((sampleRedis.get_items (some 0) 0 sampleRedisSt).1
            = ["a", "b"].map deserialize_item
        ∧ (sampleDDB.get_items (some 0) sampleDDBSt).1
            = ["a", "b"].map deserialize_item)) :=
  ⟨⟨by decide, by decide, by decide⟩,
    C1_get_items_limit sampleRedis sampleDDB sampleRedisSt sampleDDBSt
      ["a", "b"] 0 1 (by decide) (by decide) (by decide)⟩

/-- C1 as stated is false at `k = 0`: on a session holding one item,
`get_items(limit=0)` returns that item on both backends, not the empty
sequence `min 0 1 = 0` would demand (Python `-0 == 0`, so the Redis call
is `LRANGE key 0 -1` and the DynamoDB slice is `items[0:]`). -/
theorem C1_counterexample :
    ((RedisSession.mk "s" "p" none).get_items (some 0) 0
        (redisRpush RedisState.empty (RedisSession.mk "s" "p" none).key
          ["a"])).1
      = [Item.dict "a"]
    ∧ ((DynamoDBSession.mk "s" "t" none).get_items (some 0)
        ⟨updT DDBState.empty.tables "t" "s" (some ⟨["a"], 0, none⟩)⟩).1
      = [Item.dict "a"]
    ∧ [Item.dict "a"] ≠ ([] : List Item) := by decide

/-- C6 (amended): `get_items` never errors for any integer limit (it is
a total function on both backends); a limit of `0` or one at least the
stored count degrades to the full sequence on both backends; a negative
limit, however, returns the stored sequence with its first `|limit|`
items dropped (empty when `|limit| ≥ N`), not the full sequence. -/
theorem C6_degraded_limits (cr : RedisSession) (cd : DynamoDBSession)
    (str : RedisState) (std : DDBState) (ss : List String)
    (now : Nat) (k : Int)
    (hr : str.data cr.key = ss)
    (hd : std.cdata cd.table_name cd.session_id = ss) :
    (k = 0 ∨ (ss.length : Int) ≤ k →
      (cr.get_items (some k) now str).1 = ss.map deserialize_item
      ∧ (cd.get_items (some k) std).1 = ss.map deserialize_item)
    ∧ (k < 0 →
      (cr.get_items (some k) now str).1
          = (ss.map deserialize_item).drop (-k).toNat
      ∧ (cd.get_items (some k) std).1
          = (ss.map deserialize_item).drop (-k).toNat) := by
  rw [RedisSession.get_items_fst, DynamoDBSession.get_items_fst_ddb, hr, hd]
  constructor
  · intro hk
    have hfull : pySliceFrom (-k) ss = ss := by
      rw [pySliceFrom_neg_eq_limitSpec]
      simp only [limitSpec]
      rcases hk with rfl | hk
      · simp
      · by_cases h0 : 0 < k
        · rw [if_pos h0]
          have : ss.length - k.toNat = 0 := by omega
          rw [this, List.drop_zero]
        · have : k = 0 := by omega
          simp [this]
    rw [hfull]
    exact ⟨rfl, rfl⟩
  · intro hk
    have hneg : pySliceFrom (-k) ss = ss.drop (-k).toNat := by
      rw [pySliceFrom_neg_eq_limitSpec]
      simp only [limitSpec]
      rw [if_neg (by omega), if_neg (by omega)]
    rw [hneg, List.map_drop]
    exact ⟨rfl, rfl⟩

/-- Witness for C6 at a concrete two-element store and `k = 5 > N`. -/
theorem C6_degraded_limits_witness :
    (sampleRedisSt.data sampleRedis.key = ["a", "b"]
      ∧ sampleDDBSt.cdata sampleDDB.table_name sampleDDB.session_id
          = ["a", "b"])
    ∧ (((5 : Int) = 0 ∨ ((["a", "b"].length : Nat) : Int) ≤ 5 →
        (sampleRedis.get_items (some 5) 0 sampleRedisSt).1
            = ["a", "b"].map deserialize_item
        ∧ (sampleDDB.get_items (some 5) sampleDDBSt).1
            = ["a", "b"].map deserialize_item)
      ∧ ((5 : Int) < 0 →
        (sampleRedis.get_items (some 5) 0 sampleRedisSt).1
            = (["a", "b"].map deserialize_item).drop (-(5 : Int)).toNat
        ∧ (sampleDDB.get_items (some 5) sampleDDBSt).1
            = (["a", "b"].map deserialize_item).drop (-(5 : Int)).toNat)) :=
  ⟨⟨by decide, by decide⟩,
    C6_degraded_limits sampleRedis sampleDDB sampleRedisSt sampleDDBSt
      ["a", "b"] 0 5 (by decide) (by decide)⟩

/-- C6 as stated is false for negative limits on DynamoDB: with two
items stored and `limit = -1`, `items[-limit:]` is `items[1:]`, one
item — not "as many as available" (the full two-item sequence). -/
theorem C6_counterexample :
    ((DynamoDBSession.mk "s" "t" none).get_items (some (-1))
        ⟨updT DDBState.empty.tables "t" "s" (some ⟨["a", "b"], 0, none⟩)⟩).1
      = [Item.dict "b"]
    ∧ [Item.dict "b"] ≠ [Item.dict "a", Item.dict "b"] := by decide

/-- C2: for every session and every pair of batches of (dict) items A
and B, `add_items(A)` then `add_items(B)` then `get_items()` (no limit)
returns the concatenation of A and B with the original relative order
preserved inside each batch, on both backends. -/
theorem C2_append_order (cr : RedisSession) (cd : DynamoDBSession)
    (str : RedisState) (std : DDBState) (A B : List String)
    (n1 n2 n3 n4 n5 : Nat)
    (hr : str.data cr.key = [])
    (hd : std.cdata cd.table_name cd.session_id = []) :
    (cr.get_items none n3 ((cr.add_items (B.map Item.dict) n2
        ((cr.add_items (A.map Item.dict) n1 str).2.1)).2.1)).1
      = (A ++ B).map Item.dict
    ∧ (cd.get_items none ((cd.add_items (B.map Item.dict) n5
        ((cd.add_items (A.map Item.dict) n4 std).2.1)).2.1)).1
      = (A ++ B).map Item.dict := by
  constructor
  · rw [RedisSession.get_items_fst, pySliceFrom_zero,
      RedisSession.add_items_data_self, RedisSession.add_items_data_self,
      hr]
    simp [deserialize_item_eq]
  · rw [DynamoDBSession.get_items_fst_ddb, pySliceFrom_zero,
      DynamoDBSession.add_items_cdata_self,
      DynamoDBSession.add_items_cdata_self, hd]
    simp [deserialize_item_eq]

/-- Witness for C2: appending ["a"] then ["b"] to a fresh session. -/
theorem C2_append_order_witness :
    (RedisState.empty.data sampleRedis.key = []
      ∧ DDBState.empty.cdata sampleDDB.table_name sampleDDB.session_id = [])
    ∧ ((sampleRedis.get_items none 3 ((sampleRedis.add_items
          (["b"].map Item.dict) 2 ((sampleRedis.add_items
            (["a"].map Item.dict) 1 RedisState.empty).2.1)).2.1)).1
        = (["a"] ++ ["b"]).map Item.dict
      ∧ (sampleDDB.get_items none ((sampleDDB.add_items
          (["b"].map Item.dict) 5 ((sampleDDB.add_items
            (["a"].map Item.dict) 4 DDBState.empty).2.1)).2.1)).1
        = (["a"] ++ ["b"]).map Item.dict) :=
  ⟨⟨by decide, by decide⟩,
    C2_append_order sampleRedis sampleDDB RedisState.empty DDBState.empty
      ["a"] ["b"] 1 2 3 4 5 (by decide) (by decide)⟩

/-- C3: on both backends, `pop_item` returns the most recently added
(highest-index) item of the current sequence and leaves exactly the
rest in order (for a sequence of `N ≥ 1` items, the first `N − 1`); on
an empty or never-created session it returns the no-item marker
(`getLast? [] = none`) and the session still holds `0` items
(`dropLast [] = []`). -/
theorem C3_pop_item (cr : RedisSession) (cd : DynamoDBSession)
    (str : RedisState) (std : DDBState) (n1 n2 n3 n4 : Nat) :
    ((cr.pop_item n2 str).1 = (cr.get_items none n1 str).1.getLast?
      ∧ (cr.get_items none n3 ((cr.pop_item n2 str).2.1)).1
          = (cr.get_items none n1 str).1.dropLast)
    ∧ ((cd.pop_item n4 std).1 = (cd.get_items none std).1.getLast?
      ∧ (cd.get_items none ((cd.pop_item n4 std).2.1)).1
          = (cd.get_items none std).1.dropLast) := by
  refine ⟨⟨?_, ?_⟩, ⟨?_, ?_⟩⟩
  · rw [RedisSession.pop_item_fst, RedisSession.get_items_fst,
      pySliceFrom_zero]
  · rw [RedisSession.get_items_fst, RedisSession.get_items_fst,
      pySliceFrom_zero, pySliceFrom_zero, RedisSession.pop_item_data,
      List.map_dropLast]
  · rw [DynamoDBSession.pop_item_fst_ddb, DynamoDBSession.get_items_fst_ddb,
      pySliceFrom_zero]
  · rw [DynamoDBSession.get_items_fst_ddb, DynamoDBSession.get_items_fst_ddb,
      pySliceFrom_zero, pySliceFrom_zero, DynamoDBSession.pop_item_cdata,
      List.map_dropLast]

/-- C8: for every session state, `add_items` with an empty list returns
successfully, leaves the stored state completely unchanged, and issues
no backend command at all (empty trace: no write, no read, no TTL
refresh), on both backends. -/
theorem C8_add_empty_noop (cr : RedisSession) (cd : DynamoDBSession)
    (str : RedisState) (std : DDBState) (n1 n2 : Nat) :
    cr.add_items [] n1 str = (.ok (), str, [])
    ∧ cd.add_items [] n2 std = (.ok (), std, []) :=
  ⟨rfl, rfl⟩

/-- C9: on both backends `clear_session` always succeeds (it is a total
operation, silently succeeding on an empty or never-created session and
idempotent), and a subsequent `get_items()` returns the empty
sequence. -/
theorem C9_clear_session (cr : RedisSession) (cd : DynamoDBSession)
    (str : RedisState) (std : DDBState) (n1 : Nat) :
    ((cr.get_items none n1 ((cr.clear_session str).1)).1 = []
      ∧ (cr.clear_session ((cr.clear_session str).1)).1
          = (cr.clear_session str).1)
    ∧ ((cd.get_items none ((cd.clear_session std).1)).1 = []
      ∧ (cd.clear_session ((cd.clear_session std).1)).1
          = (cd.clear_session std).1) := by
  refine ⟨⟨?_, ?_⟩, ⟨?_, ?_⟩⟩
  · rw [RedisSession.get_items_fst, pySliceFrom_zero,
      RedisSession.clear_session_data]
    rfl
  · simp [RedisSession.clear_session, redisDel, upd_upd]
  · rw [DynamoDBSession.get_items_fst_ddb, pySliceFrom_zero,
      DynamoDBSession.clear_session_cdata]
    rfl
  · simp [DynamoDBSession.clear_session, updT_updT]

/-- DynamoDB `add_items` on a batch with an unserializable item: the
GetItem read has already been issued when `_serialize_items` raises
inside `_put_items`, but nothing is written. -/
theorem DynamoDBSession.add_items_bad_ddb (c : DynamoDBSession)
    (items : List Item) (now : Nat) (st : DDBState)
    (h : ∃ i ∈ items, serialize_item i = none) :
    c.add_items items now st
      = (.error "TypeError", st, [.get_item c.table_name c.session_id]) := by
  have hne : items ≠ [] := by
    rintro rfl
    simp at h
  obtain ⟨x, hx, hfx⟩ := h
  have hser : serialize_items ((c.get_raw_items st).1 ++ items) = none :=
    serializeAll_eq_none _ ⟨x, List.mem_append_right _ hx, hfx⟩
  unfold add_items
  rw [if_neg hne]
  dsimp only
  unfold put_items
  rw [hser]
  rfl

/-- C4 (amended): for every batch containing an item that is neither a
model object nor a dict, `add_items` raises `TypeError` at serialize
time and writes nothing to storage (the state is exactly the pre-call
state) on both backends; on Redis no backend command at all is issued
before the error, while on DynamoDB the read of the existing record
(one GetItem) has already been issued — but no write follows. -/
theorem C4_add_items_type_error (cr : RedisSession) (cd : DynamoDBSession)
    (str : RedisState) (std : DDBState) (items : List Item) (n1 n2 : Nat)
    (h : ∃ i ∈ items, serialize_item i = none) :
    cr.add_items items n1 str = (.error "TypeError", str, [])
    ∧ cd.add_items items n2 std
        = (.error "TypeError", std,
          [.get_item cd.table_name cd.session_id]) :=
  ⟨RedisSession.add_items_bad cr items n1 str h,
    DynamoDBSession.add_items_bad_ddb cd items n2 std h⟩

/-- Witness for C4 on the one-element batch `[Item.bad "x"]`. -/
theorem C4_add_items_type_error_witness :
    (∃ i ∈ [Item.bad "x"], serialize_item i = none)
    ∧ (sampleRedis.add_items [Item.bad "x"] 0 sampleRedisSt
        = (.error "TypeError", sampleRedisSt, [])
      ∧ sampleDDB.add_items [Item.bad "x"] 0 sampleDDBSt
        = (.error "TypeError", sampleDDBSt,
          [.get_item sampleDDB.table_name sampleDDB.session_id])) :=
  ⟨by decide,
    C4_add_items_type_error sampleRedis sampleDDB sampleRedisSt sampleDDBSt
      [Item.bad "x"] 0 0 (by decide)⟩

/-- C4 as stated is false on DynamoDB: `add_items` with an
unserializable batch does attempt backend I/O before the `TypeError` —
its trace is the nonempty `[GetItem]` (the read-modify-write reads the
record first; serialization only happens inside `_put_items`). -/
theorem C4_counterexample :
    ((DynamoDBSession.mk "s" "t" none).add_items [Item.bad "x"] 0
        DDBState.empty).2.2 ≠ [] := by decide

/-- C5 (amended): when a TTL is configured, the Redis backend refreshes
the key's expiration to now-plus-TTL on `get_items` (when the key
exists), on non-empty `add_items`, and on `pop_item` (when the key
still exists afterwards — Redis drops an emptied list key together with
its expiry, and EXPIRE on a missing key is a no-op); the DynamoDB
backend recomputes the record's absolute `ttl` attribute to
now-plus-`ttl_seconds` on every record write, i.e. on non-empty
`add_items` and on `pop_item` of a non-empty session — but its
`get_items` issues only a GetItem and never recomputes the `ttl`
attribute. -/
theorem C5_ttl_refresh (cr : RedisSession) (cd : DynamoDBSession)
    (str : RedisState) (std : DDBState) (t td now : Nat)
    (A : List String) (limit : Option Int)
    (htr : cr.ttl = some t)
    (htd : cd.ttl_seconds = some td) :
    (str.data cr.key ≠ [] →
      ((cr.get_items limit now str).2.1).expiry cr.key = some (now + t))
    ∧ (A ≠ [] →
      ((cr.add_items (A.map Item.dict) now str).2.1).expiry cr.key
        = some (now + t))
    ∧ ((str.data cr.key).dropLast ≠ [] →
      ((cr.pop_item now str).2.1).expiry cr.key = some (now + t))
    ∧ (A ≠ [] →
      (((cd.add_items (A.map Item.dict) now std).2.1).tables
          cd.table_name cd.session_id).map DDBRecord.ttl
        = some (some (now + td)))
    ∧ (std.cdata cd.table_name cd.session_id ≠ [] →
      (((cd.pop_item now std).2.1).tables cd.table_name
          cd.session_id).map DDBRecord.ttl
        = some (some (now + td)))
    ∧ (cd.get_items limit std).2
        = [.get_item cd.table_name cd.session_id] := by
  refine ⟨?_, ?_, ?_, ?_, ?_, ?_⟩
  · intro hne
    cases limit <;>
      simp [RedisSession.get_items, RedisSession.refresh_ttl, htr,
        redisExpire, hne, upd_same]
  · intro hA
    have hne : A.map Item.dict ≠ [] := by
      simpa using hA
    simp [RedisSession.add_items, hne, serializeAll_map_dict,
      RedisSession.refresh_ttl, htr, redisExpire, redisRpush, upd_same, hA]
  · intro hne
    have hcond : ¬(str.data cr.key ≠ [] ∧ (str.data cr.key).dropLast = []) := by
      tauto
    simp [RedisSession.pop_item, RedisSession.refresh_ttl, htr,
      redisRpopState, hcond, redisExpire, upd_same, hne]
  · intro hA
    have hne : A.map Item.dict ≠ [] := by
      simpa using hA
    have hser :
        DynamoDBSession.serialize_items
            ((std.cdata cd.table_name cd.session_id).map Item.dict
              ++ A.map Item.dict)
          = some (std.cdata cd.table_name cd.session_id ++ A) := by
      rw [← List.map_append]
      exact serializeAll_map_dict _
    unfold DynamoDBSession.add_items
    rw [if_neg hne]
    dsimp only
    rw [DynamoDBSession.get_raw_items_fst]
    unfold DynamoDBSession.put_items
    rw [hser]
    simp [updT_same, DynamoDBSession.get_ttl_value, htd]
  · intro hne
    have hmne : (std.cdata cd.table_name cd.session_id).map Item.dict ≠ [] := by
      simpa using hne
    have hser :
        DynamoDBSession.serialize_items
            (((std.cdata cd.table_name cd.session_id).map Item.dict).dropLast)
          = some ((std.cdata cd.table_name cd.session_id).dropLast) := by
      rw [(List.map_dropLast Item.dict _).symm]
      exact serializeAll_map_dict _
    unfold DynamoDBSession.pop_item
    dsimp only
    rw [DynamoDBSession.get_raw_items_fst, if_neg hmne]
    unfold DynamoDBSession.put_items
    rw [hser]
    simp [updT_same, DynamoDBSession.get_ttl_value, htd]
  · cases limit <;> rfl

/-- Witness for C5 on non-empty concrete stores with TTL 300 at
`now = 50`. -/
theorem C5_ttl_refresh_witness :
    ((RedisSession.mk "s" "p" (some 300)).ttl = some 300
      ∧ (DynamoDBSession.mk "s" "t" (some 300)).ttl_seconds = some 300)
    ∧ ((sampleRedisSt.data (RedisSession.mk "s" "p" (some 300)).key ≠ [] →
        (((RedisSession.mk "s" "p" (some 300)).get_items none 50
            sampleRedisSt).2.1).expiry
            (RedisSession.mk "s" "p" (some 300)).key = some (50 + 300))
      ∧ (["c"] ≠ ([] : List String) →
        (((RedisSession.mk "s" "p" (some 300)).add_items
            (["c"].map Item.dict) 50 sampleRedisSt).2.1).expiry
            (RedisSession.mk "s" "p" (some 300)).key = some (50 + 300))
      ∧ ((sampleRedisSt.data (RedisSession.mk "s" "p" (some 300)).key).dropLast
            ≠ [] →
        (((RedisSession.mk "s" "p" (some 300)).pop_item 50
            sampleRedisSt).2.1).expiry
            (RedisSession.mk "s" "p" (some 300)).key = some (50 + 300))
      ∧ (["c"] ≠ ([] : List String) →
        ((((DynamoDBSession.mk "s" "t" (some 300)).add_items
            (["c"].map Item.dict) 50 sampleDDBSt).2.1).tables "t" "s").map
            DDBRecord.ttl = some (some (50 + 300)))
      ∧ (sampleDDBSt.cdata "t" "s" ≠ [] →
        ((((DynamoDBSession.mk "s" "t" (some 300)).pop_item 50
            sampleDDBSt).2.1).tables "t" "s").map DDBRecord.ttl
          = some (some (50 + 300)))
      ∧ ((DynamoDBSession.mk "s" "t" (some 300)).get_items none
          sampleDDBSt).2 = [.get_item "t" "s"]) :=
  ⟨⟨rfl, rfl⟩,
    C5_ttl_refresh (RedisSession.mk "s" "p" (some 300))
      (DynamoDBSession.mk "s" "t" (some 300)) sampleRedisSt sampleDDBSt
      300 300 50 ["c"] none rfl rfl⟩

/-- C5 as stated is false: DynamoDB `get_items` is a read that does not
recompute the record's `ttl` attribute.  With `ttl_seconds = 300` and a
record whose stored `ttl` is `100`, `get_items` issues only a GetItem
(no PutItem, so no attribute of the record changes), and the stored
`ttl` of `100` is not now-plus-300 at `now = 50`. -/
theorem C5_counterexample :
    ((DynamoDBSession.mk "s" "t" (some 300)).get_items none
        ⟨updT DDBState.empty.tables "t" "s" (some ⟨["a"], 0, some 100⟩)⟩).2
      = [DCmd.get_item "t" "s"]
    ∧ (((⟨updT DDBState.empty.tables "t" "s"
          (some ⟨["a"], 0, some 100⟩)⟩ : DDBState).tables "t" "s").map
          DDBRecord.ttl = some (some 100))
    ∧ some (100 : Nat) ≠ some (50 + 300 : Nat) := by decide

/-! ### C7: session isolation under interleaving -/

/-- One call of the common session interface. -/
inductive SOp where
  | get (limit : Option Int)
  | add (items : List Item)
  | pop
  | clear
deriving Repr

/-- The caller-visible result of one interface call. -/
inductive SOut where
  | got (l : List Item)
  | added (r : Except String Unit)
  | popped (i : Option Item)
  | cleared
deriving Repr

/-- Dispatch one interface call to the Redis backend. -/
def RedisSession.run (c : RedisSession) (op : SOp) (now : Nat)
    (st : RedisState) : SOut × RedisState :=
  match op with
  | .get lim => (.got (c.get_items lim now st).1, (c.get_items lim now st).2.1)
  | .add its => (.added (c.add_items its now st).1, (c.add_items its now st).2.1)
  | .pop => (.popped (c.pop_item now st).1, (c.pop_item now st).2.1)
  | .clear => (.cleared, (c.clear_session st).1)

theorem redisRpush_frame (st : RedisState) (key : String)
    (vals : List String) (k : String) (hk : k ≠ key) :
    (redisRpush st key vals).data k = st.data k
    ∧ (redisRpush st key vals).expiry k = st.expiry k :=
  ⟨upd_ne hk, rfl⟩

theorem redisRpopState_frame (st : RedisState) (key k : String)
    (hk : k ≠ key) :
    (redisRpopState st key).data k = st.data k
    ∧ (redisRpopState st key).expiry k = st.expiry k := by
  unfold redisRpopState
  dsimp only
  split <;> simp [upd_ne hk]

theorem redisExpire_frame (st : RedisState) (key : String) (now t : Nat)
    (k : String) (hk : k ≠ key) :
    (redisExpire st key now t).data k = st.data k
    ∧ (redisExpire st key now t).expiry k = st.expiry k := by
  unfold redisExpire
  split <;> simp [upd_ne hk]

theorem RedisSession.refresh_ttl_frame (c : RedisSession) (now : Nat)
    (st : RedisState) (k : String) (hk : k ≠ c.key) :
    ((c.refresh_ttl now st).1).data k = st.data k
    ∧ ((c.refresh_ttl now st).1).expiry k = st.expiry k := by
  unfold refresh_ttl
  cases c.ttl with
  | none => exact ⟨rfl, rfl⟩
  | some t => exact redisExpire_frame st c.key now t k hk

/-- A Redis session call never touches another key. -/
theorem RedisSession.run_frame_redis (c : RedisSession) (op : SOp) (now : Nat)
    (st : RedisState) (k : String) (hk : k ≠ c.key) :
    ((c.run op now st).2).data k = st.data k
    ∧ ((c.run op now st).2).expiry k = st.expiry k := by
  cases op with
  | get lim =>
    have hst : (c.get_items lim now st).2.1 = (c.refresh_ttl now st).1 := by
      cases lim <;> rfl
    rw [run, hst]
    exact c.refresh_ttl_frame now st k hk
  | add its =>
    by_cases hi : its = []
    · subst hi
      exact ⟨rfl, rfl⟩
    · cases hser : serializeAll its with
      | none =>
        simp only [run, add_items, hi, if_neg hi, hser]
        exact ⟨rfl, rfl⟩
      | some ser =>
        have hst : (c.add_items its now st).2.1
            = (c.refresh_ttl now (redisRpush st c.key ser)).1 := by
          simp only [add_items, if_neg hi, hser]
        rw [run, hst]
        have h2 := c.refresh_ttl_frame now (redisRpush st c.key ser) k hk
        have h1 := redisRpush_frame st c.key ser k hk
        exact ⟨h2.1.trans h1.1, h2.2.trans h1.2⟩
  | pop =>
    have h2 := c.refresh_ttl_frame now (redisRpopState st c.key) k hk
    have h1 := redisRpopState_frame st c.key k hk
    exact ⟨h2.1.trans h1.1, h2.2.trans h1.2⟩
  | clear =>
    exact ⟨upd_ne hk, upd_ne hk⟩

theorem redisRpopState_data (st : RedisState) (key : String) :
    (redisRpopState st key).data = upd st.data key (st.data key).dropLast := by
  unfold redisRpopState
  dsimp only
  split <;> rfl

theorem redisRpopState_expiry (st : RedisState) (key : String) :
    (redisRpopState st key).expiry
      = if st.data key ≠ [] ∧ (st.data key).dropLast = []
        then upd st.expiry key none else st.expiry := by
  unfold redisRpopState
  dsimp only
  split <;> simp [*]

theorem RedisSession.refresh_ttl_local (c : RedisSession) (now : Nat)
    (st st' : RedisState)
    (hd : st.data c.key = st'.data c.key)
    (he : st.expiry c.key = st'.expiry c.key) :
    ((c.refresh_ttl now st).1).data c.key
        = ((c.refresh_ttl now st').1).data c.key
    ∧ ((c.refresh_ttl now st).1).expiry c.key
        = ((c.refresh_ttl now st').1).expiry c.key := by
  unfold refresh_ttl
  cases c.ttl with
  | none => exact ⟨hd, he⟩
  | some t =>
    dsimp only
    unfold redisExpire
    by_cases h0 : st'.data c.key = []
    · rw [if_pos (hd.trans h0), if_pos h0]
      exact ⟨hd, he⟩
    · rw [if_neg (fun hc => h0 (hd.symm.trans hc)), if_neg h0]
      exact ⟨hd, by simp [upd_same]⟩

/-- What a Redis session call returns, and what it leaves under its own
key, depends only on what was under its own key. -/
theorem RedisSession.run_local_redis (c : RedisSession) (op : SOp) (now : Nat)
    (st st' : RedisState)
    (hd : st.data c.key = st'.data c.key)
    (he : st.expiry c.key = st'.expiry c.key) :
    (c.run op now st).1 = (c.run op now st').1
    ∧ ((c.run op now st).2).data c.key = ((c.run op now st').2).data c.key
    ∧ ((c.run op now st).2).expiry c.key
        = ((c.run op now st').2).expiry c.key := by
  cases op with
  | get lim =>
    have hout : (c.get_items lim now st).1 = (c.get_items lim now st').1 := by
      rw [get_items_fst, get_items_fst, hd]
    have hst : ∀ s : RedisState,
        (c.get_items lim now s).2.1 = (c.refresh_ttl now s).1 := by
      intro s
      cases lim <;> rfl
    have hloc := c.refresh_ttl_local now st st' hd he
    simp only [run, hst]
    exact ⟨congrArg SOut.got hout, hloc.1, hloc.2⟩
  | add its =>
    by_cases hi : its = []
    · subst hi
      exact ⟨rfl, hd, he⟩
    · cases hser : serializeAll its with
      | none =>
        simp only [run, add_items, if_neg hi, hser]
        exact ⟨trivial, hd, he⟩
      | some ser =>
        simp only [run, add_items, if_neg hi, hser]
        have hd1 : (redisRpush st c.key ser).data c.key
            = (redisRpush st' c.key ser).data c.key := by
          simp [redisRpush, upd_same, hd]
        have hloc := c.refresh_ttl_local now (redisRpush st c.key ser)
          (redisRpush st' c.key ser) hd1 he
        exact ⟨trivial, hloc.1, hloc.2⟩
  | pop =>
    have hout : (c.pop_item now st).1 = (c.pop_item now st').1 := by
      rw [pop_item_fst, pop_item_fst, hd]
    have hd1 : (redisRpopState st c.key).data c.key
        = (redisRpopState st' c.key).data c.key := by
      rw [redisRpopState_data, redisRpopState_data, upd_same, upd_same, hd]
    have he1 : (redisRpopState st c.key).expiry c.key
        = (redisRpopState st' c.key).expiry c.key := by
      rw [redisRpopState_expiry, redisRpopState_expiry, hd]
      split <;> simp [upd_same, he]
    have hloc := c.refresh_ttl_local now (redisRpopState st c.key)
      (redisRpopState st' c.key) hd1 he1
    exact ⟨congrArg SOut.popped hout, hloc.1, hloc.2⟩
  | clear =>
    exact ⟨rfl, by simp [run, clear_session, redisDel, upd_same],
      by simp [run, clear_session, redisDel, upd_same]⟩

/-- Dispatch one interface call to the DynamoDB backend (`get_items`
issues no write, so it leaves the service state unchanged). -/
def DynamoDBSession.run (c : DynamoDBSession) (op : SOp) (now : Nat)
    (st : DDBState) : SOut × DDBState :=
  match op with
  | .get lim => (.got (c.get_items lim st).1, st)
  | .add its => (.added (c.add_items its now st).1, (c.add_items its now st).2.1)
  | .pop => (.popped (c.pop_item now st).1, (c.pop_item now st).2.1)
  | .clear => (.cleared, (c.clear_session st).1)

/-- A DynamoDB session call never touches another (table, key) pair. -/
theorem DynamoDBSession.run_frame_ddb (c : DynamoDBSession) (op : SOp)
    (now : Nat) (st : DDBState) (t k : String)
    (hk : ¬(t = c.table_name ∧ k = c.session_id)) :
    ((c.run op now st).2).tables t k = st.tables t k := by
  cases op with
  | get lim => rfl
  | add its =>
    by_cases hi : its = []
    · subst hi
      rfl
    · simp only [run, add_items, if_neg hi]
      unfold put_items
      cases hser : serialize_items ((c.get_raw_items st).1 ++ its) with
      | none => rfl
      | some ser => exact updT_ne hk
  | pop =>
    simp only [run, pop_item]
    by_cases hi : (c.get_raw_items st).1 = []
    · rw [if_pos hi]
    · rw [if_neg hi]
      unfold put_items
      cases hser : serialize_items ((c.get_raw_items st).1).dropLast with
      | none => rfl
      | some ser => exact updT_ne hk
  | clear => exact updT_ne hk

/-- What a DynamoDB session call returns, and what it leaves under its
own (table, key) pair, depends only on its own record. -/
theorem DynamoDBSession.run_local_ddb (c : DynamoDBSession) (op : SOp)
    (now : Nat) (st st' : DDBState)
    (h : st.tables c.table_name c.session_id
      = st'.tables c.table_name c.session_id) :
    (c.run op now st).1 = (c.run op now st').1
    ∧ ((c.run op now st).2).tables c.table_name c.session_id
        = ((c.run op now st').2).tables c.table_name c.session_id := by
  have hc : st.cdata c.table_name c.session_id
      = st'.cdata c.table_name c.session_id := by
    unfold DDBState.cdata
    rw [h]
  cases op with
  | get lim =>
    have hout : (c.get_items lim st).1 = (c.get_items lim st').1 := by
      rw [get_items_fst_ddb, get_items_fst_ddb, hc]
    exact ⟨congrArg SOut.got hout, h⟩
  | add its =>
    by_cases hi : its = []
    · subst hi
      exact ⟨rfl, h⟩
    · simp only [run, add_items, if_neg hi]
      rw [get_raw_items_fst, get_raw_items_fst, hc]
      unfold put_items
      cases hser : serialize_items
          ((st'.cdata c.table_name c.session_id).map Item.dict ++ its) with
      | none => exact ⟨rfl, h⟩
      | some ser =>
        dsimp only
        refine ⟨rfl, ?_⟩
        rw [updT_same, updT_same]
  | pop =>
    simp only [run, pop_item]
    rw [get_raw_items_fst, get_raw_items_fst, hc]
    by_cases hi : (st'.cdata c.table_name c.session_id).map Item.dict = []
    · rw [if_pos hi, if_pos hi]
      exact ⟨rfl, h⟩
    · rw [if_neg hi, if_neg hi]
      unfold put_items
      cases hser : serialize_items
          (((st'.cdata c.table_name c.session_id).map Item.dict).dropLast) with
      | none => exact ⟨rfl, h⟩
      | some ser =>
        dsimp only
        refine ⟨rfl, ?_⟩
        rw [updT_same, updT_same]
  | clear =>
    refine ⟨rfl, ?_⟩
    simp only [run, clear_session]
    rw [updT_same, updT_same]

/-- One entry of an interleaved schedule: which of the two sessions
makes the call, the call, and the wall-clock time of the call. -/
structure Sched where
  who : Bool
  op : SOp
  now : Nat

/-- Run a list of calls of one session alone on the Redis service. -/
def redisRunSolo (c : RedisSession) :
    List (SOp × Nat) → RedisState → List SOut × RedisState
  | [], st => ([], st)
  | e :: rest, st =>
    let p := c.run e.1 e.2 st
    let q := redisRunSolo c rest p.2
    (p.1 :: q.1, q.2)

/-- Run an interleaved schedule of two sessions on one shared Redis
service. -/
def redisRunBoth (c1 c2 : RedisSession) :
    List Sched → RedisState → List (Bool × SOut) × RedisState
  | [], st => ([], st)
  | e :: rest, st =>
    let p := (if e.who then c2 else c1).run e.op e.now st
    let q := redisRunBoth c1 c2 rest p.2
    ((e.who, p.1) :: q.1, q.2)

/-- Run a list of calls of one session alone on the DynamoDB service. -/
def ddbRunSolo (c : DynamoDBSession) :
    List (SOp × Nat) → DDBState → List SOut × DDBState
  | [], st => ([], st)
  | e :: rest, st =>
    let p := c.run e.1 e.2 st
    let q := ddbRunSolo c rest p.2
    (p.1 :: q.1, q.2)

/-- Run an interleaved schedule of two sessions on one shared DynamoDB
service. -/
def ddbRunBoth (c1 c2 : DynamoDBSession) :
    List Sched → DDBState → List (Bool × SOut) × DDBState
  | [], st => ([], st)
  | e :: rest, st =>
    let p := (if e.who then c2 else c1).run e.op e.now st
    let q := ddbRunBoth c1 c2 rest p.2
    ((e.who, p.1) :: q.1, q.2)

/-- The calls one session contributes to an interleaved schedule. -/
def projSched (w : Bool) : List Sched → List (SOp × Nat)
  | [] => []
  | e :: rest =>
    if e.who = w then (e.op, e.now) :: projSched w rest else projSched w rest

/-- The outputs one session receives from an interleaved run. -/
def projOuts (w : Bool) : List (Bool × SOut) → List SOut
  | [] => []
  | e :: rest =>
    if e.1 = w then e.2 :: projOuts w rest else projOuts w rest

/-- Non-interference on the Redis service: in any interleaved schedule
of two sessions with distinct keys, each session receives exactly the
outputs of its own calls run alone, and its key ends with exactly the
solo run's contents. -/
theorem redisRunBoth_proj (c1 c2 : RedisSession) (hk : c1.key ≠ c2.key)
    (sched : List Sched) :
    ∀ st st1 st2 : RedisState,
      st.data c1.key = st1.data c1.key →
      st.expiry c1.key = st1.expiry c1.key →
      st.data c2.key = st2.data c2.key →
      st.expiry c2.key = st2.expiry c2.key →
      projOuts false (redisRunBoth c1 c2 sched st).1
          = (redisRunSolo c1 (projSched false sched) st1).1
      ∧ projOuts true (redisRunBoth c1 c2 sched st).1
          = (redisRunSolo c2 (projSched true sched) st2).1
      ∧ ((redisRunBoth c1 c2 sched st).2.data c1.key
            = (redisRunSolo c1 (projSched false sched) st1).2.data c1.key
        ∧ (redisRunBoth c1 c2 sched st).2.expiry c1.key
            = (redisRunSolo c1 (projSched false sched) st1).2.expiry c1.key)
      ∧ ((redisRunBoth c1 c2 sched st).2.data c2.key
            = (redisRunSolo c2 (projSched true sched) st2).2.data c2.key
        ∧ (redisRunBoth c1 c2 sched st).2.expiry c2.key
            = (redisRunSolo c2 (projSched true sched) st2).2.expiry c2.key) := by
  induction sched with
  | nil =>
    intro st st1 st2 h1d h1e h2d h2e
    exact ⟨rfl, rfl, ⟨h1d, h1e⟩, ⟨h2d, h2e⟩⟩
  | cons e rest ih =>
    intro st st1 st2 h1d h1e h2d h2e
    obtain ⟨who, op, now⟩ := e
    cases who with
    | false =>
      have hloc := RedisSession.run_local_redis c1 op now st st1 h1d h1e
      have hfr := RedisSession.run_frame_redis c1 op now st c2.key (Ne.symm hk)
      have IH := ih (c1.run op now st).2 (c1.run op now st1).2 st2
        hloc.2.1 hloc.2.2 (hfr.1.trans h2d) (hfr.2.trans h2e)
      simp only [redisRunBoth, redisRunSolo, projSched, projOuts,
        Bool.false_eq_true, Bool.true_eq_false, reduceIte]
      refine ⟨?_, IH.2.1, IH.2.2.1, IH.2.2.2⟩
      rw [hloc.1, IH.1]
    | true =>
      have hloc := RedisSession.run_local_redis c2 op now st st2 h2d h2e
      have hfr := RedisSession.run_frame_redis c2 op now st c1.key hk
      have IH := ih (c2.run op now st).2 st1 (c2.run op now st2).2
        (hfr.1.trans h1d) (hfr.2.trans h1e) hloc.2.1 hloc.2.2
      simp only [redisRunBoth, redisRunSolo, projSched, projOuts,
        Bool.false_eq_true, Bool.true_eq_false, reduceIte]
      refine ⟨IH.1, ?_, IH.2.2.1, IH.2.2.2⟩
      rw [hloc.1, IH.2.1]

/-- Non-interference on the DynamoDB service: same statement for two
sessions over the same table with distinct partition keys. -/
theorem ddbRunBoth_proj (c1 c2 : DynamoDBSession)
    (hk : ¬(c1.table_name = c2.table_name ∧ c1.session_id = c2.session_id))
    (sched : List Sched) :
    ∀ st st1 st2 : DDBState,
      st.tables c1.table_name c1.session_id
          = st1.tables c1.table_name c1.session_id →
      st.tables c2.table_name c2.session_id
          = st2.tables c2.table_name c2.session_id →
      projOuts false (ddbRunBoth c1 c2 sched st).1
          = (ddbRunSolo c1 (projSched false sched) st1).1
      ∧ projOuts true (ddbRunBoth c1 c2 sched st).1
          = (ddbRunSolo c2 (projSched true sched) st2).1
      ∧ (ddbRunBoth c1 c2 sched st).2.tables c1.table_name c1.session_id
          = (ddbRunSolo c1 (projSched false sched) st1).2.tables
              c1.table_name c1.session_id
      ∧ (ddbRunBoth c1 c2 sched st).2.tables c2.table_name c2.session_id
          = (ddbRunSolo c2 (projSched true sched) st2).2.tables
              c2.table_name c2.session_id := by
  have hk' : ¬(c2.table_name = c1.table_name ∧ c2.session_id = c1.session_id) := by
    intro hcon
    exact hk ⟨hcon.1.symm, hcon.2.symm⟩
  induction sched with
  | nil =>
    intro st st1 st2 h1 h2
    exact ⟨rfl, rfl, h1, h2⟩
  | cons e rest ih =>
    intro st st1 st2 h1 h2
    obtain ⟨who, op, now⟩ := e
    cases who with
    | false =>
      have hloc := DynamoDBSession.run_local_ddb c1 op now st st1 h1
      have hfr := DynamoDBSession.run_frame_ddb c1 op now st c2.table_name
        c2.session_id hk'
      have IH := ih (c1.run op now st).2 (c1.run op now st1).2 st2
        hloc.2 (hfr.trans h2)
      simp only [ddbRunBoth, ddbRunSolo, projSched, projOuts,
        Bool.false_eq_true, Bool.true_eq_false, reduceIte]
      refine ⟨?_, IH.2.1, IH.2.2.1, IH.2.2.2⟩
      rw [hloc.1, IH.1]
    | true =>
      have hloc := DynamoDBSession.run_local_ddb c2 op now st st2 h2
      have hfr := DynamoDBSession.run_frame_ddb c2 op now st c1.table_name
        c1.session_id hk
      have IH := ih (c2.run op now st).2 st1 (c2.run op now st2).2
        (hfr.trans h1) hloc.2
      simp only [ddbRunBoth, ddbRunSolo, projSched, projOuts,
        Bool.false_eq_true, Bool.true_eq_false, reduceIte]
      refine ⟨IH.1, ?_, IH.2.2.1, IH.2.2.2⟩
      rw [hloc.1, IH.2.1]

/-- Distinct session ids under the same key prefix give distinct Redis
keys (`"{prefix}:{session_id}"` is injective in the id for a fixed
prefix). -/
theorem RedisSession.key_ne (c1 c2 : RedisSession)
    (hp : c1.key_prefix = c2.key_prefix)
    (hs : c1.session_id ≠ c2.session_id) : c1.key ≠ c2.key := by
  intro h
  apply hs
  unfold key at h
  rw [hp] at h
  have h' := congrArg String.data h
  simp [String.data_append] at h'
  exact String.ext h'

/-- C7: two session objects with distinct `session_id` values sharing
the same client — same key prefix on Redis, same table on DynamoDB —
never observe or alter each other's items under any interleaving of
`get_items`, `add_items`, `pop_item` and `clear_session`: each session
receives exactly the outputs of its own calls run alone on the shared
initial state, and its stored data ends exactly as in that solo run. -/
theorem C7_session_isolation (c1 c2 : RedisSession)
    (d1 d2 : DynamoDBSession)
    (hp : c1.key_prefix = c2.key_prefix)
    (hs : c1.session_id ≠ c2.session_id)
    (htb : d1.table_name = d2.table_name)
    (hds : d1.session_id ≠ d2.session_id)
    (sched : List Sched) (str : RedisState) (std : DDBState) :
    (projOuts false (redisRunBoth c1 c2 sched str).1
        = (redisRunSolo c1 (projSched false sched) str).1
      ∧ projOuts true (redisRunBoth c1 c2 sched str).1
        = (redisRunSolo c2 (projSched true sched) str).1
      ∧ (redisRunBoth c1 c2 sched str).2.data c1.key
        = (redisRunSolo c1 (projSched false sched) str).2.data c1.key
      ∧ (redisRunBoth c1 c2 sched str).2.data c2.key
        = (redisRunSolo c2 (projSched true sched) str).2.data c2.key)
    ∧ (projOuts false (ddbRunBoth d1 d2 sched std).1
        = (ddbRunSolo d1 (projSched false sched) std).1
      ∧ projOuts true (ddbRunBoth d1 d2 sched std).1
        = (ddbRunSolo d2 (projSched true sched) std).1
      ∧ (ddbRunBoth d1 d2 sched std).2.tables d1.table_name d1.session_id
        = (ddbRunSolo d1 (projSched false sched) std).2.tables
            d1.table_name d1.session_id
      ∧ (ddbRunBoth d1 d2 sched std).2.tables d2.table_name d2.session_id
        = (ddbRunSolo d2 (projSched true sched) std).2.tables
            d2.table_name d2.session_id) := by
  have hkey := RedisSession.key_ne c1 c2 hp hs
  have hr := redisRunBoth_proj c1 c2 hkey sched str str str rfl rfl rfl rfl
  have hdk : ¬(d1.table_name = d2.table_name
      ∧ d1.session_id = d2.session_id) := by
    intro hcon
    exact hds hcon.2
  have hd := ddbRunBoth_proj d1 d2 hdk sched std std std rfl rfl
  exact ⟨⟨hr.1, hr.2.1, hr.2.2.1.1, hr.2.2.2.1⟩,
    ⟨hd.1, hd.2.1, hd.2.2.1, hd.2.2.2⟩⟩

def isoR1 : RedisSession := ⟨"s1", "p", some 10⟩

def isoR2 : RedisSession := ⟨"s2", "p", none⟩

def isoD1 : DynamoDBSession := ⟨"s1", "t", none⟩

def isoD2 : DynamoDBSession := ⟨"s2", "t", some 5⟩

/-- A sample interleaved schedule for the isolation witness. -/
def isoSched : List Sched :=
  [⟨false, .add [Item.dict "a"], 1⟩, ⟨true, .add [Item.dict "b"], 2⟩,
    ⟨false, .pop, 3⟩, ⟨true, .get none, 4⟩, ⟨false, .clear, 5⟩]

/-- Witness for C7 on two concrete sessions (same prefix/table, ids
"s1" and "s2") and a concrete five-step interleaving. -/
theorem C7_session_isolation_witness :
    (("p" : String) = "p" ∧ ("s1" : String) ≠ "s2"
      ∧ ("t" : String) = "t")
    ∧ ((projOuts false (redisRunBoth isoR1 isoR2 isoSched RedisState.empty).1
          = (redisRunSolo isoR1 (projSched false isoSched)
              RedisState.empty).1
        ∧ projOuts true (redisRunBoth isoR1 isoR2 isoSched RedisState.empty).1
          = (redisRunSolo isoR2 (projSched true isoSched)
              RedisState.empty).1
        ∧ (redisRunBoth isoR1 isoR2 isoSched RedisState.empty).2.data isoR1.key
          = (redisRunSolo isoR1 (projSched false isoSched)
              RedisState.empty).2.data isoR1.key
        ∧ (redisRunBoth isoR1 isoR2 isoSched RedisState.empty).2.data isoR2.key
          = (redisRunSolo isoR2 (projSched true isoSched)
              RedisState.empty).2.data isoR2.key)
      ∧ (projOuts false (ddbRunBoth isoD1 isoD2 isoSched DDBState.empty).1
          = (ddbRunSolo isoD1 (projSched false isoSched) DDBState.empty).1
        ∧ projOuts true (ddbRunBoth isoD1 isoD2 isoSched DDBState.empty).1
          = (ddbRunSolo isoD2 (projSched true isoSched) DDBState.empty).1
        ∧ (ddbRunBoth isoD1 isoD2 isoSched DDBState.empty).2.tables
              isoD1.table_name isoD1.session_id
          = (ddbRunSolo isoD1 (projSched false isoSched)
              DDBState.empty).2.tables isoD1.table_name isoD1.session_id
        ∧ (ddbRunBoth isoD1 isoD2 isoSched DDBState.empty).2.tables
              isoD2.table_name isoD2.session_id
          = (ddbRunSolo isoD2 (projSched true isoSched)
              DDBState.empty).2.tables isoD2.table_name isoD2.session_id)) :=
  ⟨⟨by decide, by decide, by decide⟩,
    C7_session_isolation isoR1 isoR2 isoD1 isoD2 (by decide) (by decide)
      (by decide) (by decide) isoSched RedisState.empty DDBState.empty⟩
